import Mathlib

/-!
Shallow embedding of the two model files of `pytorch_tabular`
(`models/category_embedding/category_embedding_model.py` and
`models/mixture_density/mdn.py`) and proofs of the specification claims.

Tensors are embedded as lists of rationals: a batch tensor of shape
`[batch, d]` is a `List (List ℚ)`; a batch of categorical codes is a
`List (List ℕ)`.  External `torch` modules that the repository only calls
(dropout, batch norm, linear layers, `torch.norm`, the Gaussian sampler)
are carried as function-valued fields of the embedded model records, so
every statement is universally quantified over their behaviour.
-/

namespace PyTab

/-- A batch tensor of shape `[batch, d]`. -/
abbrev Mat := List (List ℚ)

/-- The input record format: a mapping with a continuous-value matrix and a
categorical-code matrix (`x["continuous"]`, `x["categorical"]`). -/
structure InputBatch where
  continuous : Mat
  categorical : List (List ℕ)
  deriving DecidableEq, Repr

/-! ## Category-embedding backbone (`category_embedding_model.py`) -/

/-- The hyperparameters of `CategoryEmbeddingBackbone` that `unpack_input`
and `_build_network` read. -/
structure CEHparams where
  embedded_cat_dim : ℕ
  continuous_dim : ℕ
  batch_norm_continuous_input : Bool
  embedding_dropout : ℚ
  deriving DecidableEq, Repr

/-- Result of `unpack_input`: the Python function returns a feature tensor,
except when both the embedded-categorical and continuous dimensions are
zero, in which case it falls through and returns its input mapping. -/
inductive UnpackOut where
  | tensor (t : Mat)
  | raw (x : InputBatch)
  deriving DecidableEq, Repr

/-- `CategoryEmbeddingBackbone`: hyperparameters plus the external torch
modules it owns (`embedding_layers`, `embd_dropout`,
`normalizing_batch_norm`, `linear_layers`), embedded as functions. -/
structure CategoryEmbeddingBackbone where
  hparams : CEHparams
  /-- `self.embedding_layers`: one embedding table per categorical column,
  mapping a vocabulary index to an embedding vector. -/
  embedding_layers : List (ℕ → List ℚ)
  /-- `self.embd_dropout` (external `nn.Dropout`). -/
  embd_dropout : Mat → Mat
  /-- `self.normalizing_batch_norm` (external `nn.BatchNorm1d`). -/
  normalizing_batch_norm : Mat → Mat
  /-- `self.linear_layers` (the configurable feed-forward block); in Python
  it is handed whatever `unpack_input` returned, tensor or raw mapping. -/
  linear_layers : UnpackOut → Mat

/-- One row of `[embedding_layer(categorical_data[:, i]) for i, ...]`
followed by `torch.cat(x, 1)`: per-column embeddings, concatenated in
column order. -/
def embedRow (layers : List (ℕ → List ℚ)) (codes : List ℕ) : List ℚ :=
  ((layers.zip codes).map (fun lc => lc.1 lc.2)).flatten

/-- `CategoryEmbeddingBackbone.unpack_input`.  Mirrors the source: the
first `if` builds the embedded categorical tensor (with dropout when
`embedding_dropout > 0`), the second handles the continuous part
(batch-normalized when configured), concatenating with `torch.cat(-, 1)`
only when both dimensions are nonzero; when both are zero the input
mapping itself is returned. -/
def CategoryEmbeddingBackbone.unpack_input (b : CategoryEmbeddingBackbone)
    (x : InputBatch) : UnpackOut :=
  if b.hparams.embedded_cat_dim ≠ 0 then
    let e := x.categorical.map (embedRow b.embedding_layers)
    let e := if 0 < b.hparams.embedding_dropout then b.embd_dropout e else e
    if b.hparams.continuous_dim ≠ 0 then
      let continuous_data :=
        if b.hparams.batch_norm_continuous_input then
          b.normalizing_batch_norm x.continuous
        else x.continuous
      UnpackOut.tensor (List.zipWith (· ++ ·) e continuous_data)
    else UnpackOut.tensor e
  else
    if b.hparams.continuous_dim ≠ 0 then
      let continuous_data :=
        if b.hparams.batch_norm_continuous_input then
          b.normalizing_batch_norm x.continuous
        else x.continuous
      UnpackOut.tensor continuous_data
    else UnpackOut.raw x

/-- `CategoryEmbeddingBackbone.forward`: unpack, then the feed-forward
block. -/
def CategoryEmbeddingBackbone.forward (b : CategoryEmbeddingBackbone)
    (x : InputBatch) : Mat :=
  b.linear_layers (b.unpack_input x)

/-! ## Mixture-density model (`mdn.py`)

`MDNModel` delegates the mixture arithmetic to a `MixtureDensityHead`
(`pytorch_tabular.models.common.heads.blocks`), whose source is not part
of this repository slice; its sub-networks and numeric kernels are
embedded as function fields and, where a claim needs their behaviour,
modelled from the spec. -/

/-- Mean of a list (`torch.mean`). -/
def listMean (l : List ℚ) : ℚ := l.sum / (l.length : ℚ)

/-- Modelled from the spec: the normalizing transform that turns raw
mixing-weight activations into simplex weights ("enforced implicitly via
a normalizing transform").  `normalize w` divides each entry by the total. -/
def normalize (w : List ℚ) : List ℚ := w.map (fun a => a / w.sum)

/-- The head hyperparameters read by `MDNModel.calculate_loss`. -/
structure MDNHeadHparams where
  /-- `weight_regularization`: the norm order shared by the three penalty
  terms, or `none` to disable regularization. -/
  weight_regularization : Option ℕ
  lambda_sigma : ℚ
  lambda_pi : ℚ
  lambda_mu : ℚ
  deriving DecidableEq, Repr

/-- `MixtureDensityHead` as seen from `mdn.py`: its hyperparameters, its
three sub-networks (`pi`, `sigma`, `mu`) with their parameter tensors,
and the external numeric kernels it calls.  The sub-network forwards, the
mixture log-likelihood (`log_prob`), `torch.norm` (`normFn`) and the
Gaussian sampling transform (`gaussTransform`) live outside this
repository slice and are carried as function fields. -/
structure MixtureDensityHead where
  hparams : MDNHeadHparams
  /-- The raw (pre-normalization) activation of the mixing-weight
  sub-network `self.pi`, per feature row. -/
  piNet : List ℚ → List ℚ
  /-- The standard-deviation sub-network `self.sigma`, per feature row. -/
  sigmaNet : List ℚ → List ℚ
  /-- The mean sub-network `self.mu`, per feature row. -/
  muNet : List ℚ → List ℚ
  /-- `self.pi.parameters()`: the parameter tensors, each flattened
  (`x.view(-1)`). -/
  piParams : List (List ℚ)
  /-- `self.sigma.parameters()`, each tensor flattened. -/
  sigmaParams : List (List ℚ)
  /-- `self.mu.parameters()`, each tensor flattened. -/
  muParams : List (List ℚ)
  /-- Modelled from the spec: the pointwise strictly-positive map of the
  normalizing transform applied to the raw mixing-weight activations
  (`exp` in a softmax).  Kept abstract: the simplex property depends only
  on its positivity. -/
  posMap : ℚ → ℚ
  /-- `torch.norm v p`: the vector norm of order `p`, external kernel. -/
  normFn : ℕ → List ℚ → ℚ
  /-- `self.head.log_prob pi sigma mu y`: per-sample log-likelihood of the
  target under the mixture, external to this repository slice. -/
  log_prob : List ℚ → List ℚ → List ℚ → ℚ → ℚ
  /-- Modelled from the spec: the transform drawing a Gaussian sample from
  a component mean, standard deviation and a unit pseudo-random draw. -/
  gaussTransform : ℚ → ℚ → ℚ → ℚ

/-- Modelled from the spec: the head's forward pass on one feature row,
producing the mixture parameters `(pi, sigma, mu)`; the mixing weights
are produced by the normalizing transform over positive activations. -/
def MixtureDensityHead.forwardOne (h : MixtureDensityHead) (r : List ℚ) :
    List ℚ × List ℚ × List ℚ :=
  (normalize ((h.piNet r).map h.posMap), h.sigmaNet r, h.muNet r)

/-- The head applied to a batch of feature rows: the three `[batch, k]`
mixture-parameter tensors. -/
def MixtureDensityHead.forwardBatch (h : MixtureDensityHead) (t : Mat) :
    Mat × Mat × Mat :=
  (t.map (fun r => (h.forwardOne r).1),
   t.map (fun r => (h.forwardOne r).2.1),
   t.map (fun r => (h.forwardOne r).2.2))

/-- Modelled from the spec: per-row point prediction, "sum over components
of (weight × mean)". -/
def MixtureDensityHead.generate_point_predictions (_h : MixtureDensityHead)
    (pi _sigma mu : Mat) : List ℚ :=
  (pi.zip mu).map (fun pm => ((pm.1.zip pm.2).map (fun c => c.1 * c.2)).sum)

/-- The mixture distribution's analytic expected value, written from the
spec's words: sum over components of (weight × mean). -/
def mixtureExpectedValue (pi mu : List ℚ) : ℚ :=
  ((pi.zip mu).map (fun c => c.1 * c.2)).sum

/-- Modelled from the spec: a linear-congruential pseudo-random generator
state step, standing in for the framework's seeded global generator. -/
def lcgNext (s : ℕ) : ℕ := (s * 1103515245 + 12345) % 2147483648

/-- Modelled from the spec: the unit pseudo-random draw read off a
generator state. -/
def unitDraw (s : ℕ) : ℚ := (s : ℚ) / 2147483648

/-- Modelled from the spec: categorical choice of a mixture component by
inverse CDF over the mixing weights. -/
def pickComponent : List ℚ → ℚ → ℕ
  | [], _ => 0
  | [_], _ => 0
  | p :: q :: ps, u => if u ≤ p then 0 else pickComponent (q :: ps) (u - p) + 1

/-- Modelled from the spec: draw one sample from the mixture described by
`(pi, sigma, mu)` — pick a component by the mixing weights, then draw
from that component's Gaussian — threading the generator state. -/
def sampleOne (h : MixtureDensityHead) (pi sigma mu : List ℚ) (s : ℕ) :
    ℚ × ℕ :=
  let s1 := lcgNext s
  let i := pickComponent pi (unitDraw s1)
  let s2 := lcgNext s1
  (h.gaussTransform (mu.getD i 0) (sigma.getD i 0) (unitDraw s2), s2)

/-- `n` successive draws for one row, threading the generator state. -/
def sampleRow (h : MixtureDensityHead) (pi sigma mu : List ℚ) :
    ℕ → ℕ → List ℚ × ℕ
  | 0, s => ([], s)
  | n + 1, s =>
    let vs := sampleOne h pi sigma mu s
    let rest := sampleRow h pi sigma mu n vs.2
    (vs.1 :: rest.1, rest.2)

/-- Modelled from the spec: `head.generate_samples` — for each batch row,
`n` draws from that row's mixture, threading the generator state across
rows. -/
def MixtureDensityHead.generate_samples (h : MixtureDensityHead) :
    Mat → Mat → Mat → ℕ → ℕ → Mat × ℕ
  | p :: ps, sg :: sgs, m :: ms, n, s =>
    let row := sampleRow h p sg m n s
    let rest := MixtureDensityHead.generate_samples h ps sgs ms n row.2
    (row.1 :: rest.1, rest.2)
  | _, _, _, _, s => ([], s)

/-- The model-level configuration fields `MDNModel.__init__` reads
(`config.task`, `config.target_range`, and `hparams.output_dim` merged
from the config). -/
structure MDNConfig where
  task : String
  output_dim : ℕ
  target_range : Option (ℚ × ℚ)
  deriving DecidableEq, Repr

/-- The inferred feature-cardinality metadata required among the keyword
arguments. -/
structure InferredConfig where
  categorical_cardinality : List ℕ
  continuous_dim : ℕ
  deriving DecidableEq, Repr

/-- The keyword arguments of `MDNModel.__init__`, together with the
externally built backbone and head (constructed by `_build_network` from
configuration outside this repository slice). -/
structure MDNKwargs where
  inferred_config : Option InferredConfig
  backbone : InputBatch → Mat
  head : MixtureDensityHead

/-- The constructed `MDNModel`. -/
structure MDNModel where
  hparams : MDNConfig
  backbone : InputBatch → Mat
  head : MixtureDensityHead

/-- The warning logged when a target range is configured. -/
def targetRangeWarning : String := "MDN does not use target range. Ignoring it."

/-- `MDNModel.__init__`: asserts `"inferred_config" in kwargs`, then
`config.task == "regression"`, runs the base initializer, asserts
`hparams.output_dim == 1`, and warns when `config.target_range` is not
`None`.  Returns the model with the list of warnings logged, or the
failed assertion's message. -/
def MDNModel.init (config : MDNConfig) (kwargs : MDNKwargs) :
    Except String (MDNModel × List String) :=
  if kwargs.inferred_config.isNone then
    Except.error "inferred_config not found in initialization arguments"
  else if config.task ≠ "regression" then
    Except.error "MDN is only implemented for Regression"
  else if config.output_dim ≠ 1 then
    Except.error "MDN is not implemented for multi-targets"
  else
    Except.ok ({ hparams := config, backbone := kwargs.backbone,
                 head := kwargs.head },
               if config.target_range.isSome then [targetRangeWarning] else [])

/-- `MDNModel.compute_head`: run the head on the backbone features and
return the four-entry mapping. -/
def MDNModel.compute_head (m : MDNModel) (x : Mat) : List (String × Mat) :=
  let out := m.head.forwardBatch x
  [("pi", out.1), ("sigma", out.2.1), ("mu", out.2.2), ("backbone_features", x)]

/-- Modelled from the spec: the base class's forward pass feeds the input
through the backbone and then through `compute_head`. -/
def MDNModel.forward (m : MDNModel) (x : InputBatch) : List (String × Mat) :=
  m.compute_head (m.backbone x)

/-- `ret_value[key]` on the forward output. -/
def getEntry (l : List (String × Mat)) (k : String) : Mat :=
  (l.lookup k).getD []

/-- `MDNModel.predict`: forward, then
`head.generate_point_predictions(ret["pi"], ret["sigma"], ret["mu"])`. -/
def MDNModel.predict (m : MDNModel) (x : InputBatch) : List ℚ :=
  let ret := m.forward x
  m.head.generate_point_predictions (getEntry ret "pi") (getEntry ret "sigma")
    (getEntry ret "mu")

/-- `MDNModel.sample` (with `ret_model_output=False`): forward, then
`head.generate_samples(ret["pi"], ret["sigma"], ret["mu"], n)`, with the
generator state made explicit. -/
def MDNModel.sample (m : MDNModel) (x : InputBatch) (n : ℕ) (s : ℕ) :
    Mat × ℕ :=
  let ret := m.forward x
  m.head.generate_samples (getEntry ret "pi") (getEntry ret "sigma")
    (getEntry ret "mu") n s

/-- Per-sample `head.log_prob(pi, sigma, mu, y)` over the batch rows. -/
def batchLogProb (h : MixtureDensityHead) :
    Mat → Mat → Mat → List ℚ → List ℚ
  | p :: ps, sg :: sgs, m :: ms, y :: ys =>
    h.log_prob p sg m y :: batchLogProb h ps sgs ms ys
  | _, _, _, _ => []

/-- `MDNModel.calculate_loss`: `torch.mean(-log_prob)` plus, when
`weight_regularization` is configured, the three conditional penalty
terms `lambda * torch.norm(cat([x.view(-1) for x in net.parameters()]),
weight_regularization)`.  The `tag` argument only affects logging. -/
def MDNModel.calculate_loss (m : MDNModel) (y : List ℚ)
    (pi sigma mu : Mat) (_tag : String) : ℚ :=
  let log_prob := batchLogProb m.head pi sigma mu y
  let loss := listMean (log_prob.map (fun v => -v))
  match m.head.hparams.weight_regularization with
  | none => loss
  | some p =>
    let sigma_l1_reg :=
      if 0 < m.head.hparams.lambda_sigma then
        m.head.hparams.lambda_sigma * m.head.normFn p m.head.sigmaParams.flatten
      else 0
    let pi_l1_reg :=
      if 0 < m.head.hparams.lambda_pi then
        m.head.hparams.lambda_pi * m.head.normFn p m.head.piParams.flatten
      else 0
    let mu_l1_reg :=
      if 0 < m.head.hparams.lambda_mu then
        m.head.hparams.lambda_mu * m.head.normFn p m.head.muParams.flatten
      else 0
    loss + sigma_l1_reg + pi_l1_reg + mu_l1_reg

/-- The mean of the per-sample negative log-likelihoods,
`torch.mean(-log_prob)`, written out for the loss decomposition. -/
def batchNLLMean (m : MDNModel) (y : List ℚ) (pi sigma mu : Mat) : ℚ :=
  listMean ((batchLogProb m.head pi sigma mu y).map (fun v => -v))

/-- One weight-regularization penalty term: `lambda * norm` exactly when
the coefficient is strictly positive, else nothing. -/
def regPenalty (lam norm : ℚ) : ℚ := if 0 < lam then lam * norm else 0

/-! ## Backbone-config lookup in `MDNModel._build_network` -/

/-- The Python exceptions relevant to the backbone-config lookup. -/
inductive PyExc where
  | attributeError (name : String)
  | moduleNotFoundError (name : String)
  deriving DecidableEq, Repr

/-- The attributes of the `pytorch_tabular.models` package: config-class
names mapped to opaque class values. -/
structure ModelsRegistry where
  entries : List (String × ℕ)
  deriving DecidableEq, Repr

/-- `getattr(models, name)`: Python attribute lookup on a module raises
`AttributeError` when the name does not resolve. -/
def getattrModels (reg : ModelsRegistry) (name : String) : Except PyExc ℕ :=
  match reg.entries.lookup name with
  | some c => Except.ok c
  | none => Except.error (PyExc.attributeError name)

/-- The corrective hint `_build_network` logs in its handler. -/
def configClassHint : String :=
  "`config class` in `backbone_config` is not valid. The config class should be a valid module path from `models`. e.g. `ft_transformer.FTTransformerConfig`."

/-- The lookup step of `MDNModel._build_network`:
`try: callable = getattr(models, callable) except ModuleNotFoundError:
log(hint); raise`.  Returns the lookup result together with the list of
error messages logged; an exception the `except` clause does not match
propagates without logging. -/
def buildNetworkLookup (reg : ModelsRegistry) (name : String) :
    Except PyExc ℕ × List String :=
  match getattrModels reg name with
  | Except.ok c => (Except.ok c, [])
  | Except.error e =>
    match e with
    | PyExc.moduleNotFoundError _ => (Except.error e, [configClassHint])
    | PyExc.attributeError _ => (Except.error e, [])

/-! ## Concrete instances used by the witness theorems -/

/-- A small concrete category-embedding backbone with the given
hyperparameters: one identity-ish embedding column, a dropout that adds
100, a batch norm that doubles, and a feed-forward block that projects a
raw mapping to its continuous part. -/
def cebWith (hp : CEHparams) : CategoryEmbeddingBackbone where
  hparams := hp
  embedding_layers := [fun c => [(c : ℚ)]]
  embd_dropout := fun t => t.map (fun r => r.map (fun v => v + 100))
  normalizing_batch_norm := fun t => t.map (fun r => r.map (fun v => 2 * v))
  linear_layers := fun o =>
    match o with
    | UnpackOut.tensor t => t
    | UnpackOut.raw x => x.continuous

/-- A one-row input batch: continuous value 3, categorical code 5. -/
def xW : InputBatch := ⟨[[3]], [[5]]⟩

/-- A small concrete mixture-density head with two components and order-2
weight regularization on all three groups. -/
def headW : MixtureDensityHead where
  hparams := ⟨some 2, 1, 1, 1⟩
  piNet := fun _ => [1, 1]
  sigmaNet := fun _ => [1, 1]
  muNet := fun _ => [2, 4]
  piParams := [[1, 2], [3]]
  sigmaParams := [[4]]
  muParams := [[5]]
  posMap := fun _ => 1
  normFn := fun _ v => v.sum
  log_prob := fun _ _ _ y => y
  gaussTransform := fun _ _ u => u

/-- `headW` with weight regularization disabled. -/
def headWnone : MixtureDensityHead :=
  { headW with hparams := ⟨none, 1, 1, 1⟩ }

/-- A concrete mixture-density model over the given head, whose backbone
maps every input to one zero feature row. -/
def mdnW (h : MixtureDensityHead) : MDNModel :=
  ⟨⟨"regression", 1, none⟩, fun _ => [[0]], h⟩

/-- A concrete valid configuration carrying a target range. -/
def cfgW : MDNConfig := ⟨"regression", 1, some (0, 1)⟩

/-- Concrete keyword arguments with an inferred config present. -/
def kwW : MDNKwargs := ⟨some ⟨[3], 1⟩, fun _ => [[0]], headW⟩

end PyTab

namespace PyTab

/-! ## Theorems -/

/-- C3: with zero embedded-categorical dimension and nonzero continuous
dimension, `unpack_input` returns only the continuous data
(batch-normalized when the flag is set), never touching the embedding
path; symmetrically with zero continuous dimension it returns only the
concatenated per-column embeddings (with dropout when configured); and
the `torch.cat` of the two parts happens exactly in the case where both
dimensions are nonzero. -/
theorem unpack_input_single_side (b : CategoryEmbeddingBackbone)
    (x : InputBatch) :
    (b.hparams.embedded_cat_dim = 0 → b.hparams.continuous_dim ≠ 0 →
      b.unpack_input x = UnpackOut.tensor
        (if b.hparams.batch_norm_continuous_input then
           b.normalizing_batch_norm x.continuous
         else x.continuous)) ∧
    (b.hparams.continuous_dim = 0 → b.hparams.embedded_cat_dim ≠ 0 →
      b.unpack_input x = UnpackOut.tensor
        (if 0 < b.hparams.embedding_dropout then
           b.embd_dropout (x.categorical.map (embedRow b.embedding_layers))
         else x.categorical.map (embedRow b.embedding_layers))) ∧
    (b.hparams.embedded_cat_dim ≠ 0 → b.hparams.continuous_dim ≠ 0 →
      b.unpack_input x = UnpackOut.tensor
        (List.zipWith (· ++ ·)
          (if 0 < b.hparams.embedding_dropout then
             b.embd_dropout (x.categorical.map (embedRow b.embedding_layers))
           else x.categorical.map (embedRow b.embedding_layers))
          (if b.hparams.batch_norm_continuous_input then
             b.normalizing_batch_norm x.continuous
           else x.continuous))) := by
  refine ⟨fun h1 h2 => ?_, fun h1 h2 => ?_, fun h1 h2 => ?_⟩ <;>
    simp [CategoryEmbeddingBackbone.unpack_input, h1, h2]

/-- Witness for C3 at concrete backbones: continuous-only, categorical-only
and both-sides configurations. -/
theorem unpack_input_single_side_witness :
    (cebWith ⟨0, 1, false, 0⟩).unpack_input xW = UnpackOut.tensor [[3]] ∧
    (cebWith ⟨1, 0, false, 0⟩).unpack_input xW = UnpackOut.tensor [[5]] ∧
    (cebWith ⟨1, 1, false, 0⟩).unpack_input xW = UnpackOut.tensor [[5, 3]] :=
  ⟨(unpack_input_single_side (cebWith ⟨0, 1, false, 0⟩) xW).1 rfl (by decide),
   (unpack_input_single_side (cebWith ⟨1, 0, false, 0⟩) xW).2.1 rfl (by decide),
   (unpack_input_single_side (cebWith ⟨1, 1, false, 0⟩) xW).2.2 (by decide)
     (by decide)⟩

/-- C10: when both the embedded-categorical and the continuous dimension
are zero, `unpack_input` returns its input mapping unchanged, and the
backbone forward pass therefore hands that unmodified mapping to the
feed-forward block. -/
theorem unpack_input_both_empty (b : CategoryEmbeddingBackbone)
    (x : InputBatch) (hc : b.hparams.embedded_cat_dim = 0)
    (hn : b.hparams.continuous_dim = 0) :
    b.unpack_input x = UnpackOut.raw x ∧
    b.forward x = b.linear_layers (UnpackOut.raw x) := by
  have h : b.unpack_input x = UnpackOut.raw x := by
    simp [CategoryEmbeddingBackbone.unpack_input, hc, hn]
  exact ⟨h, by rw [CategoryEmbeddingBackbone.forward, h]⟩

/-- Witness for C10 at a concrete backbone with both dimensions zero. -/
theorem unpack_input_both_empty_witness :
    (cebWith ⟨0, 0, false, 0⟩).unpack_input xW = UnpackOut.raw xW ∧
    (cebWith ⟨0, 0, false, 0⟩).forward xW = [[3]] :=
  unpack_input_both_empty (cebWith ⟨0, 0, false, 0⟩) xW rfl rfl

/-- C2: `MDNModel` construction succeeds exactly when the task is
regression, the output dimensionality is 1, and an inferred config is
supplied among the keyword arguments; whenever one of the three fails,
the corresponding assertion aborts construction. -/
theorem init_preconditions (config : MDNConfig) (kwargs : MDNKwargs) :
    (MDNModel.init config kwargs).isOk = true ↔
      (config.task = "regression" ∧ config.output_dim = 1 ∧
       kwargs.inferred_config.isSome = true) := by
  unfold MDNModel.init
  split_ifs with h1 h2 h3 <;>
    simp_all [Except.isOk, Except.toBool, Option.isNone_iff_eq_none,
      Option.isSome_iff_ne_none]

/-- C8: with the three construction preconditions satisfied, a non-null
target range is accepted — construction succeeds — while the
target-range-ignored warning is logged, and the resulting model's
forward pass, prediction, loss and sampling coincide with those of the
model built from the same configuration with a null target range. -/
theorem target_range_ignored (cfg : MDNConfig) (kw : MDNKwargs) (r : ℚ × ℚ)
    (htask : cfg.task = "regression") (hout : cfg.output_dim = 1)
    (hinf : kw.inferred_config.isSome = true)
    (hr : cfg.target_range = some r) :
    ∃ m₁ w₁ m₂ w₂,
      MDNModel.init cfg kw = Except.ok (m₁, w₁) ∧
      MDNModel.init { cfg with target_range := none } kw =
        Except.ok (m₂, w₂) ∧
      w₁ = [targetRangeWarning] ∧ w₂ = [] ∧
      (∀ x, m₁.forward x = m₂.forward x) ∧
      (∀ x, m₁.predict x = m₂.predict x) ∧
      (∀ y pi sigma mu tag, m₁.calculate_loss y pi sigma mu tag =
        m₂.calculate_loss y pi sigma mu tag) ∧
      (∀ x n s, m₁.sample x n s = m₂.sample x n s) := by
  have h1 : kw.inferred_config.isNone = false := by
    cases h : kw.inferred_config <;> simp_all
  refine ⟨⟨cfg, kw.backbone, kw.head⟩, [targetRangeWarning],
          ⟨{ cfg with target_range := none }, kw.backbone, kw.head⟩, [],
          ?_, ?_, rfl, rfl, fun _ => rfl, fun _ => rfl,
          fun _ _ _ _ _ => rfl, fun _ _ _ => rfl⟩
  · simp [MDNModel.init, h1, htask, hout, hr]
  · simp [MDNModel.init, h1, htask, hout]

/-- Witness for C8 at a concrete configuration carrying a target range. -/
theorem target_range_ignored_witness :
    ∃ m₁ w₁ m₂ w₂,
      MDNModel.init cfgW kwW = Except.ok (m₁, w₁) ∧
      MDNModel.init { cfgW with target_range := none } kwW =
        Except.ok (m₂, w₂) ∧
      w₁ = [targetRangeWarning] ∧ w₂ = [] ∧
      (∀ x, m₁.forward x = m₂.forward x) ∧
      (∀ x, m₁.predict x = m₂.predict x) ∧
      (∀ y pi sigma mu tag, m₁.calculate_loss y pi sigma mu tag =
        m₂.calculate_loss y pi sigma mu tag) ∧
      (∀ x n s, m₁.sample x n s = m₂.sample x n s) :=
  target_range_ignored cfgW kwW (0, 1) rfl rfl rfl rfl

/-- C6 (the code at the claimed failing input): looking up a
backbone-config-class name absent from the `models` registry raises
`AttributeError`, which the `except ModuleNotFoundError` clause of
`_build_network` does not match, so construction fails with the lookup
error while the corrective hint is never logged. -/
theorem buildNetworkLookup_no_hint :
    buildNetworkLookup ⟨[("CategoryEmbeddingModelConfig", 0)]⟩ "NotAConfig" =
      (Except.error (PyExc.attributeError "NotAConfig"), []) := rfl

/-- C1: `calculate_loss` is the batch mean of the negated per-sample
mixture log-likelihood and, when `weight_regularization` is configured,
additionally one penalty term per parameter group — present exactly when
that group's lambda is strictly positive, each equal to lambda times the
norm of the group's flattened parameters at the single shared
`weight_regularization` order. -/
theorem calculate_loss_decomposition (m : MDNModel) (y : List ℚ)
    (pi sigma mu : Mat) (tag : String) :
    (m.head.hparams.weight_regularization = none →
      m.calculate_loss y pi sigma mu tag = batchNLLMean m y pi sigma mu) ∧
    (∀ p, m.head.hparams.weight_regularization = some p →
      m.calculate_loss y pi sigma mu tag =
        batchNLLMean m y pi sigma mu
          + regPenalty m.head.hparams.lambda_sigma
              (m.head.normFn p m.head.sigmaParams.flatten)
          + regPenalty m.head.hparams.lambda_pi
              (m.head.normFn p m.head.piParams.flatten)
          + regPenalty m.head.hparams.lambda_mu
              (m.head.normFn p m.head.muParams.flatten)) := by
  constructor
  · intro h
    simp [MDNModel.calculate_loss, batchNLLMean, h]
  · intro p h
    simp [MDNModel.calculate_loss, batchNLLMean, regPenalty, h]

/-- Witness for C1: the loss evaluated at a concrete batch, once with
regularization disabled and once with all three penalties active. -/
theorem calculate_loss_decomposition_witness :
    (mdnW headWnone).calculate_loss [4] [[1]] [[1]] [[2]] "train" = -4 ∧
    (mdnW headW).calculate_loss [4] [[1]] [[1]] [[2]] "train" = 11 := by
  constructor
  · rw [(calculate_loss_decomposition (mdnW headWnone) [4] [[1]] [[1]] [[2]]
      "train").1 rfl]
    norm_num [batchNLLMean, batchLogProb, listMean, mdnW, headWnone, headW]
  · rw [(calculate_loss_decomposition (mdnW headW) [4] [[1]] [[1]] [[2]]
      "train").2 2 rfl]
    norm_num [batchNLLMean, batchLogProb, listMean, mdnW, headW, regPenalty]

/-- C7: the forward pass returns a mapping of exactly the four entries
`pi`, `sigma`, `mu`, `backbone_features`, with the backbone-features
entry equal to the backbone output fed to the head. -/
theorem forward_mapping_entries (m : MDNModel) (x : InputBatch) :
    (m.forward x).map Prod.fst = ["pi", "sigma", "mu", "backbone_features"] ∧
    (m.forward x).length = 4 ∧
    (m.forward x).lookup "backbone_features" = some (m.backbone x) :=
  ⟨rfl, rfl, rfl⟩

/-- C4: `predict` returns, per batch row, the mixture's analytic expected
value — the sum over components of (mixing weight × component mean) —
computed from the `pi` and `mu` entries of the forward pass. -/
theorem predict_expected_value (m : MDNModel) (x : InputBatch) :
    m.predict x =
      ((getEntry (m.forward x) "pi").zip (getEntry (m.forward x) "mu")).map
        (fun pm => mixtureExpectedValue pm.1 pm.2) := rfl

/-- For a constant divisor, summing commutes with the division map. -/
theorem sum_map_div (w : List ℚ) (s : ℚ) :
    (w.map (fun a => a / s)).sum = w.sum / s := by
  induction w with
  | nil => simp
  | cons a t ih => simp [ih, add_div]

/-- Entries of `normalize` over positive inputs are non-negative. -/
theorem normalize_mem_nonneg {w : List ℚ} (hw : ∀ a ∈ w, 0 < a) :
    ∀ p ∈ normalize w, 0 ≤ p := by
  intro p hp
  rw [normalize] at hp
  obtain ⟨a, ha, rfl⟩ := List.mem_map.mp hp
  have hne : w ≠ [] := by
    intro h
    subst h
    exact absurd ha (List.not_mem_nil a)
  have hs : 0 < w.sum := List.sum_pos w hw hne
  exact le_of_lt (div_pos (hw a ha) hs)

/-- `normalize` over positive inputs sums to one. -/
theorem normalize_sum_one {w : List ℚ} (hw : ∀ a ∈ w, 0 < a)
    (hne : w ≠ []) : (normalize w).sum = 1 := by
  have hs : 0 < w.sum := List.sum_pos w hw hne
  rw [normalize, sum_map_div, div_self (ne_of_gt hs)]

/-- C5: for arbitrary backbone feature inputs, every row of the `pi` entry
of the forward output is a probability vector: non-negative entries
summing to one (exactly — the rational embedding has no rounding). -/
theorem forward_pi_simplex (m : MDNModel) (x : InputBatch)
    (hpos : ∀ q, 0 < m.head.posMap q)
    (hnet : ∀ r, m.head.piNet r ≠ []) :
    ∀ row ∈ getEntry (m.forward x) "pi",
      (∀ p ∈ row, 0 ≤ p) ∧ row.sum = 1 := by
  intro row hrow
  have hpi : getEntry (m.forward x) "pi" =
      (m.backbone x).map
        (fun r => normalize ((m.head.piNet r).map m.head.posMap)) := rfl
  rw [hpi] at hrow
  obtain ⟨r, _hr, rfl⟩ := List.mem_map.mp hrow
  have hall : ∀ a ∈ (m.head.piNet r).map m.head.posMap, 0 < a := by
    intro a ha
    obtain ⟨q, _hq, rfl⟩ := List.mem_map.mp ha
    exact hpos q
  have hne : (m.head.piNet r).map m.head.posMap ≠ [] := by
    intro h
    exact hnet r (List.map_eq_nil_iff.mp h)
  exact ⟨normalize_mem_nonneg hall, normalize_sum_one hall hne⟩

/-- Witness for C5: on the concrete model the forward `pi` entry holds the
row `[1/2, 1/2]`, which sums to one with non-negative entries. -/
theorem forward_pi_simplex_witness :
    [(1 : ℚ)/2, 1/2] ∈ getEntry ((mdnW headW).forward xW) "pi" ∧
    ([(1 : ℚ)/2, 1/2]).sum = 1 ∧ (0 : ℚ) ≤ 1/2 := by
  have hmem : [(1 : ℚ)/2, 1/2] ∈ getEntry ((mdnW headW).forward xW) "pi" := by
    norm_num [getEntry, MDNModel.forward, MDNModel.compute_head,
      MixtureDensityHead.forwardBatch, MixtureDensityHead.forwardOne,
      normalize, mdnW, headW, List.lookup]
  refine ⟨hmem, ?_, ?_⟩
  · exact (forward_pi_simplex (mdnW headW) xW (fun _ => one_pos)
      (fun _ => List.cons_ne_nil 1 [1]) [(1 : ℚ)/2, 1/2] hmem).2
  · exact (forward_pi_simplex (mdnW headW) xW (fun _ => one_pos)
      (fun _ => List.cons_ne_nil 1 [1]) [(1 : ℚ)/2, 1/2] hmem).1
      ((1 : ℚ)/2) (by norm_num)

/-- The inverse-CDF component choice stays within the component range. -/
theorem pickComponent_lt : ∀ (pi : List ℚ) (u : ℚ), pi ≠ [] →
    pickComponent pi u < pi.length
  | [], _, h => absurd rfl h
  | [_], u, _ => by simp [pickComponent]
  | p :: q :: ps, u, _ => by
    simp only [pickComponent]
    split
    · simp
    · exact Nat.succ_lt_succ (pickComponent_lt (q :: ps) (u - p)
        (List.cons_ne_nil q ps))

/-- C9: sampling is a deterministic function of the generator seed — the
same model state, input and seed give identical samples; every draw is
the Gaussian transform of the mean and standard deviation of a component
chosen within range by the mixing weights; and, threading the generator
state instead of reseeding, a repeated call can return different samples
(exhibited at a concrete model). -/
theorem sample_fixed_seed (m : MDNModel) (x : InputBatch) (n : ℕ)
    (s₁ s₂ : ℕ) (hs : s₁ = s₂) :
    m.sample x n s₁ = m.sample x n s₂ ∧
    (∀ h pi sigma mu s, pi ≠ [] →
      pickComponent pi (unitDraw (lcgNext s)) < pi.length ∧
      (sampleOne h pi sigma mu s).1 =
        h.gaussTransform
          (mu.getD (pickComponent pi (unitDraw (lcgNext s))) 0)
          (sigma.getD (pickComponent pi (unitDraw (lcgNext s))) 0)
          (unitDraw (lcgNext (lcgNext s)))) ∧
    ((mdnW headW).sample xW 1 0).1 ≠
      ((mdnW headW).sample xW 1 (((mdnW headW).sample xW 1 0).2)).1 := by
  refine ⟨by rw [hs],
    fun h pi sigma mu s hne => ⟨pickComponent_lt pi _ hne, rfl⟩, ?_⟩
  norm_num [MDNModel.sample, MDNModel.forward, MDNModel.compute_head,
    MixtureDensityHead.forwardBatch, MixtureDensityHead.forwardOne,
    MixtureDensityHead.generate_samples, sampleRow, sampleOne, pickComponent,
    unitDraw, lcgNext, getEntry, List.lookup, normalize, mdnW, headW]

/-- Witness for C9 at a concrete model, seed and mixture row. -/
theorem sample_fixed_seed_witness :
    (mdnW headW).sample xW 1 7 = (mdnW headW).sample xW 1 7 ∧
    pickComponent [(1 : ℚ)/2, 1/2] (unitDraw (lcgNext 3)) < 2 :=
  ⟨(sample_fixed_seed (mdnW headW) xW 1 7 7 rfl).1,
   ((sample_fixed_seed (mdnW headW) xW 1 7 7 rfl).2.1 headW [(1 : ℚ)/2, 1/2]
      [1, 1] [2, 4] 3 (List.cons_ne_nil _ _)).1⟩

end PyTab
